import Mathlib

/-!
Verification of the web-content / extension messaging bridge
(`ExtConnection`, `handleMessage`, `connect`).

The source is TypeScript running in a browser.  We embed it shallowly:

* JavaScript values delivered through `postMessage` become the inductive
  type `JValue`; property access `x.f` becomes `getProp` (which, exactly
  as in JavaScript, throws — here `Except.error` — when the receiver is
  `null` or `undefined`, and yields `undefined` when the property is
  absent); the `'f' in x` operator becomes `hasProp`; template-literal
  interpolation of a value becomes `jsToString`.
* Promises become entries of a heap `promises : List (Nat × PromiseState)`
  indexed by allocation order.  A promise is settled at most once: the
  resolver/rejecter of an already-settled promise is a no-op, exactly as
  in JavaScript (`settlePromise`).
* `ExtConnection` objects are mutable (the `nextId++` counter), so they
  live in a heap `conns` as well; the value a connection promise resolves
  with is the heap index of the connection object, which models JavaScript
  object identity.
* The module-level registries `connectionsPromised`,
  `connectionsRequested` and `responseHandlers`, the
  `addedMessageListener` flag, the set of iframes appended to the
  document and the log of messages posted to frames are gathered in
  `BridgeState`.
-/

/-- A JavaScript value as far as this protocol observes it.  Numbers in
this module are always the non-negative integers produced by `nextId++`,
so `num` carries a `Nat`. -/
inductive JValue where
  | nullV
  | undefV
  | boolV (b : Bool)
  | numV (n : Nat)
  | strV (s : String)
  | objV (fields : List (String × JValue))

/-- JavaScript property access `x.k`: throws a TypeError on `null` and
`undefined`; yields `undefined` for a missing key or for a primitive
receiver (the boxed primitives have none of the properties this protocol
reads). -/
def getProp : JValue → String → Except Unit JValue
  | .nullV, _ => .error ()
  | .undefV, _ => .error ()
  | .objV fs, k => .ok ((fs.lookup k).getD .undefV)
  | _, _ => .ok .undefV

/-- The JavaScript `'k' in x` operator as used on message data.  In the
source it is only reached when `x.type` compared equal to a string, so the
receiver is an object; on primitives we return `false`. -/
def hasProp : JValue → String → Bool
  | .objV fs, k => (fs.lookup k).isSome
  | _, _ => false

/-- JavaScript string interpolation of a value, as in the template
literal building `handlerKey`. -/
def jsToString : JValue → String
  | .nullV => "null"
  | .undefV => "undefined"
  | .boolV b => if b then "true" else "false"
  | .numV n => toString n
  | .strV s => s
  | .objV _ => "[object Object]"

/-- Modelled from the spec: the wire discriminants of `./protocol`
(the `protocol.ts` module itself is not among the given sources; §6 of
the specification gives the wire format `\x7btype: "ready"\x7d` etc.). -/
def MESSAGE_TYPE_READY : String := "ready"

/-- Modelled from the spec: discriminant of a request message. -/
def MESSAGE_TYPE_REQUEST : String := "request"

/-- Modelled from the spec: discriminant of a response message. -/
def MESSAGE_TYPE_RESPONSE : String := "response"

/-- What a settled promise holds: connection promises resolve with a
connection object (heap index), request promises resolve with a
JavaScript value. -/
inductive PromiseResult where
  | conn (cid : Nat)
  | val (v : JValue)

/-- The lifecycle of one promise. -/
inductive PromiseState where
  | pending
  | resolved (r : PromiseResult)
  | rejected (e : JValue)

/-- The fields of an `ExtConnection` object (the class of the source).
`messageFrame` is an opaque window-proxy handle, identified by a number. -/
structure ExtConnection where
  origin : String
  messageFrame : Nat
  nextId : Nat
deriving DecidableEq, Repr

/-- One `postMessage` call made on a frame: the target window, the
`targetOrigin` restriction argument, and the data. -/
structure SentMessage where
  target : Nat
  targetOrigin : String
  data : JValue

/-- An inbound `MessageEvent`: its verified `origin`, its `source`
window handle and its `data`. -/
structure MessageEvent where
  origin : String
  source : Nat
  data : JValue

/-- The module-level mutable state of the source file, plus the two heaps
that model JavaScript object identity (promises, connections) and the two
observation logs (iframes inserted, messages posted). -/
structure BridgeState where
  addedMessageListener : Bool
  listenerInstallCount : Nat
  connectionsPromised : List (String × Nat)
  connectionsRequested : List (String × Nat)
  responseHandlers : List (String × Nat)
  promises : List (Nat × PromiseState)
  nextPromise : Nat
  conns : List (Nat × ExtConnection)
  nextConn : Nat
  framesInserted : List String
  sentMessages : List SentMessage

/-- The state at process start: every registry empty, no listener. -/
def initState : BridgeState :=
  { addedMessageListener := false
    listenerInstallCount := 0
    connectionsPromised := []
    connectionsRequested := []
    responseHandlers := []
    promises := []
    nextPromise := 0
    conns := []
    nextConn := 0
    framesInserted := []
    sentMessages := [] }

/-- Settle promise `p` to state `st` — a no-op when `p` is already
settled, which is exactly the semantics of calling a JavaScript promise
resolver or rejecter a second time. -/
def settlePromise (ps : List (Nat × PromiseState)) (p : Nat)
    (st : PromiseState) : List (Nat × PromiseState) :=
  ps.map fun q =>
    if q.1 = p then
      match q.2 with
      | .pending => (q.1, st)
      | _ => q
    else q

/-- Remove key `k` from an association list (the `delete` statement). -/
def deleteKey (hs : List (String × Nat)) (k : String) :
    List (String × Nat) :=
  hs.filter fun h => h.1 ≠ k

/-- `ExtConnection.prototype.request`.  Takes the heap index of the
connection (`this`); returns the heap index of the promise the caller
gets, together with the new state, or `none` when the connection index
is dangling (which never happens for indices handed out by the model). -/
def ExtConnection.request (cid : Nat) (req : JValue) (s : BridgeState) :
    Option (Nat × BridgeState) :=
  match s.conns.lookup cid with
  | none => none
  | some c =>
    let reqId := c.nextId
    let handlerKey := c.origin ++ "/" ++ jsToString (.numV reqId)
    let p := s.nextPromise
    some (p,
      { s with
        conns := s.conns.map fun q =>
          if q.1 = cid then (q.1, { c with nextId := reqId + 1 }) else q
        promises := (p, .pending) :: s.promises
        nextPromise := p + 1
        responseHandlers := (handlerKey, p) :: s.responseHandlers
        sentMessages :=
          { target := c.messageFrame
            targetOrigin := c.origin
            data := .objV [("type", .strV MESSAGE_TYPE_REQUEST),
                           ("id", .numV reqId),
                           ("body", req)] } :: s.sentMessages })

/-- `handleMessage`.  `Except.error` models the TypeError thrown by
`e.data.type` when `e.data` is `null` or `undefined`; in that case no
state was mutated before the throw. -/
def handleMessage (e : MessageEvent) (s : BridgeState) :
    Except Unit BridgeState :=
  match getProp e.data "type" with
  | .error _ => .error ()
  | .ok messageType =>
    match messageType with
    | .strV t =>
    if t = MESSAGE_TYPE_READY then
      match s.connectionsRequested.lookup e.origin with
      | none => .ok s
      | some p =>
        let cid := s.nextConn
        let connection : ExtConnection :=
          { origin := e.origin, messageFrame := e.source, nextId := 0 }
        .ok { s with
              conns := (cid, connection) :: s.conns
              nextConn := cid + 1
              promises := settlePromise s.promises p (.resolved (.conn cid)) }
    else if t = MESSAGE_TYPE_RESPONSE then
      let mId := (getProp e.data "id").toOption.getD .undefV
      let handlerKey := e.origin ++ "/" ++ jsToString mId
      match s.responseHandlers.lookup handlerKey with
      | none => .ok s
      | some p =>
        let s := { s with responseHandlers := deleteKey s.responseHandlers handlerKey }
        if hasProp e.data "err" then
          let mErr := (getProp e.data "err").toOption.getD .undefV
          .ok { s with promises := settlePromise s.promises p (.rejected mErr) }
        else
          let mBody := (getProp e.data "body").toOption.getD .undefV
          .ok { s with promises := settlePromise s.promises p (.resolved (.val mBody)) }
    else .ok s
    | _ => .ok s

/-- `connect`.  Returns the heap index of the promise handed to the
caller (the same index on every call with the same origin) and the new
state. -/
def connect (origin : String) (s : BridgeState) : Nat × BridgeState :=
  let s :=
    if s.addedMessageListener then s
    else { s with
           addedMessageListener := true
           listenerInstallCount := s.listenerInstallCount + 1 }
  match s.connectionsPromised.lookup origin with
  | some p => (p, s)
  | none =>
    let p := s.nextPromise
    (p,
      { s with
        promises := (p, .pending) :: s.promises
        nextPromise := p + 1
        connectionsPromised := (origin, p) :: s.connectionsPromised
        connectionsRequested := (origin, p) :: s.connectionsRequested
        framesInserted := origin :: s.framesInserted })

/-! Derived machinery used to state the claims about sequences of calls
and arbitrary interleavings of inbound events. -/

/-- A sequence of `connect` calls, in order. -/
def connectSeq (origins : List String) (s : BridgeState) : BridgeState :=
  origins.foldl (fun s o => (connect o s).2) s

/-- The things the host can do to the bridge: a caller invokes `connect`,
a caller invokes `request` on a connection object, or the browser
dispatches an inbound message event.  A `request` on a dangling
connection index and a message whose handling throws leave the state as
it was. -/
inductive BridgeEvent where
  | connectE (origin : String)
  | requestE (cid : Nat) (body : JValue)
  | messageE (e : MessageEvent)

/-- One step of the bridge under a host event. -/
def stepE (ev : BridgeEvent) (s : BridgeState) : BridgeState :=
  match ev with
  | .connectE o => (connect o s).2
  | .requestE cid b =>
    match ExtConnection.request cid b s with
    | none => s
    | some (_, s') => s'
  | .messageE e =>
    match handleMessage e s with
    | .error _ => s
    | .ok s' => s'

/-- Run a sequence of host events. -/
def runEvents (evs : List BridgeEvent) (s : BridgeState) : BridgeState :=
  evs.foldl (fun s ev => stepE ev s) s

/-- Does this event carry a message that enters the `READY` branch of
`handleMessage` for origin `O`? -/
def isReadyFrom (O : String) (ev : BridgeEvent) : Bool :=
  match ev with
  | .messageE e =>
    e.origin == O &&
      (match (getProp e.data "type").toOption.getD .undefV with
       | .strV t => t == MESSAGE_TYPE_READY
       | _ => false)
  | _ => false

/-- The facts that make a promise `p` a connection promise for origin
`O`: it is younger than the allocation counter, no pending-request entry
can settle it, and the only connection slot that can settle it is the one
for `O`.  These hold for the promise `connect O` hands out and are
preserved by every event. -/
def connGuard (O : String) (p : Nat) (s : BridgeState) : Prop :=
  p < s.nextPromise ∧
  (∀ h ∈ s.responseHandlers, h.2 ≠ p) ∧
  (∀ h ∈ s.connectionsRequested, h.2 = p → h.1 = O)

/-- What a caller holding connection `cid` can observe interleaved with
its own calls: its `request` invocations and arbitrary inbound message
events (responses to earlier requests included). -/
inductive ConnAction where
  | req (body : JValue)
  | deliver (e : MessageEvent)

/-- Run a script of requests and deliveries against connection `cid`.
`none` when a `request` hits a dangling connection index; a delivery
whose handling throws leaves the state unchanged, as the exception
escapes the listener without further effect. -/
def runScript (cid : Nat) (acts : List ConnAction) (s : BridgeState) :
    Option BridgeState :=
  match acts with
  | [] => some s
  | .req b :: rest =>
    match ExtConnection.request cid b s with
    | none => none
    | some (_, s') => runScript cid rest s'
  | .deliver e :: rest =>
    match handleMessage e s with
    | .error _ => runScript cid rest s
    | .ok s' => runScript cid rest s'

/-- How many `request` calls a script makes. -/
def numReqs (acts : List ConnAction) : Nat :=
  (acts.filter fun a => match a with | .req _ => true | _ => false).length

/-- The `id` field of a posted message, when it is a number. -/
def msgId (m : SentMessage) : Option Nat :=
  match (getProp m.data "id").toOption.getD .undefV with
  | .numV n => some n
  | _ => none

/-- The numeric ids of all messages posted so far, oldest first. -/
def sentRequestIds (s : BridgeState) : List Nat :=
  s.sentMessages.reverse.filterMap msgId

/-! Helper lemmas about the association-list operations of the model. -/

theorem lookup_cons_self {α β : Type} [BEq α] [LawfulBEq α] (k : α) (b : β)
    (l : List (α × β)) : List.lookup k ((k, b) :: l) = some b := by
  simp [List.lookup]

theorem lookup_cons_ne {α β : Type} [BEq α] [LawfulBEq α] {k a : α} (b : β)
    (l : List (α × β)) (h : k ≠ a) :
    List.lookup k ((a, b) :: l) = List.lookup k l := by
  simp [List.lookup, beq_false_of_ne h]

theorem settlePromise_cons (k : Nat) (v : PromiseState)
    (t : List (Nat × PromiseState)) (p : Nat) (st : PromiseState) :
    settlePromise ((k, v) :: t) p st =
      (if k = p then
        match v with
        | .pending => (k, st)
        | _ => (k, v)
      else (k, v)) :: settlePromise t p st := rfl

theorem lookup_settlePromise_self (ps : List (Nat × PromiseState)) (p : Nat)
    (st : PromiseState) (h : ps.lookup p = some .pending) :
    (settlePromise ps p st).lookup p = some st := by
  induction ps with
  | nil => simp [List.lookup] at h
  | cons q t ih =>
    obtain ⟨k, v⟩ := q
    rw [settlePromise_cons]
    by_cases hk : p = k
    · subst hk
      rw [lookup_cons_self] at h
      injection h with h
      subst h
      simp only [if_pos rfl]
      exact lookup_cons_self p st _
    · rw [lookup_cons_ne _ _ hk] at h
      have hkp : k ≠ p := fun hh => hk hh.symm
      rw [if_neg hkp, lookup_cons_ne _ _ hk]
      exact ih h

theorem lookup_settlePromise_resolved (ps : List (Nat × PromiseState))
    (p : Nat) (st : PromiseState) (r : PromiseResult)
    (h : ps.lookup p = some (.resolved r)) :
    (settlePromise ps p st).lookup p = some (.resolved r) := by
  induction ps with
  | nil => simp [List.lookup] at h
  | cons q t ih =>
    obtain ⟨k, v⟩ := q
    rw [settlePromise_cons]
    by_cases hk : p = k
    · subst hk
      rw [lookup_cons_self] at h
      injection h with h
      subst h
      simp only [if_pos rfl]
      exact lookup_cons_self p _ _
    · rw [lookup_cons_ne _ _ hk] at h
      have hkp : k ≠ p := fun hh => hk hh.symm
      rw [if_neg hkp, lookup_cons_ne _ _ hk]
      exact ih h

theorem lookup_settlePromise_ne (ps : List (Nat × PromiseState)) (p q : Nat)
    (st : PromiseState) (h : q ≠ p) :
    (settlePromise ps p st).lookup q = ps.lookup q := by
  induction ps with
  | nil => rfl
  | cons a t ih =>
    obtain ⟨k, v⟩ := a
    rw [settlePromise_cons]
    by_cases hq : q = k
    · subst hq
      have hkp : ¬ q = p := h
      rw [if_neg hkp, lookup_cons_self, lookup_cons_self]
    · by_cases hkp : k = p
      · subst hkp
        cases v with
        | pending =>
          rw [if_pos rfl, lookup_cons_ne _ _ hq, lookup_cons_ne _ _ hq]
          exact ih
        | resolved r =>
          rw [if_pos rfl, lookup_cons_ne _ _ hq, lookup_cons_ne _ _ hq]
          exact ih
        | rejected v =>
          rw [if_pos rfl, lookup_cons_ne _ _ hq, lookup_cons_ne _ _ hq]
          exact ih
      · rw [if_neg hkp, lookup_cons_ne _ _ hq, lookup_cons_ne _ _ hq]
        exact ih

theorem deleteKey_cons (a : String × Nat) (t : List (String × Nat))
    (k : String) :
    deleteKey (a :: t) k =
      if a.1 = k then deleteKey t k else a :: deleteKey t k := by
  by_cases ha : a.1 = k
  · simp [deleteKey, List.filter_cons, ha]
  · simp [deleteKey, List.filter_cons, ha]

theorem lookup_deleteKey_self (hs : List (String × Nat)) (k : String) :
    (deleteKey hs k).lookup k = none := by
  induction hs with
  | nil => rfl
  | cons a t ih =>
    obtain ⟨a1, a2⟩ := a
    rw [deleteKey_cons]
    by_cases ha : a1 = k
    · rw [if_pos ha]; exact ih
    · rw [if_neg ha, lookup_cons_ne _ _ fun hh => ha hh.symm]
      exact ih

theorem lookup_deleteKey_ne (hs : List (String × Nat)) (k k' : String)
    (h : k' ≠ k) :
    (deleteKey hs k).lookup k' = hs.lookup k' := by
  induction hs with
  | nil => rfl
  | cons a t ih =>
    obtain ⟨a1, a2⟩ := a
    rw [deleteKey_cons]
    by_cases ha : a1 = k
    · subst ha
      rw [if_pos rfl, lookup_cons_ne _ _ h]
      exact ih
    · rw [if_neg ha]
      by_cases hq : k' = a1
      · subst hq
        rw [lookup_cons_self, lookup_cons_self]
      · rw [lookup_cons_ne _ _ hq, lookup_cons_ne _ _ hq]
        exact ih

theorem mem_deleteKey {a : String × Nat} (hs : List (String × Nat))
    (k : String) (h : a ∈ deleteKey hs k) : a ∈ hs :=
  List.mem_of_mem_filter h

theorem append_right_ne (P : String) {a b : String} (h : a.data ≠ b.data) :
    P ++ a ≠ P ++ b := by
  intro hh
  apply h
  have hd := congrArg String.data hh
  rw [String.data_append, String.data_append] at hd
  exact List.append_cancel_left hd

theorem lookup_map_setConn (l : List (Nat × ExtConnection)) (k : Nat)
    (c c' : ExtConnection) (h : l.lookup k = some c) :
    (l.map fun q => if q.1 = k then (q.1, c') else q).lookup k = some c' := by
  induction l with
  | nil => simp [List.lookup] at h
  | cons a t ih =>
    obtain ⟨a1, a2⟩ := a
    by_cases ha : k = a1
    · subst ha
      simp only [List.map_cons, if_pos rfl]
      exact lookup_cons_self k c' _
    · rw [lookup_cons_ne _ _ ha] at h
      have ha' : ¬ a1 = k := fun hh => ha hh.symm
      simp only [List.map_cons, if_neg ha']
      rw [lookup_cons_ne _ _ ha]
      exact ih h

/-! Unfolding lemmas for the branches of `handleMessage`. -/

theorem handleMessage_ready_none (O : String) (w : Nat)
    (fields : List (String × JValue)) (s : BridgeState)
    (htype : fields.lookup "type" = some (.strV MESSAGE_TYPE_READY))
    (hslot : s.connectionsRequested.lookup O = none) :
    handleMessage ⟨O, w, .objV fields⟩ s = .ok s := by
  simp [handleMessage, getProp, htype, MESSAGE_TYPE_READY, hslot]

theorem handleMessage_ready_found (O : String) (w : Nat)
    (fields : List (String × JValue)) (s : BridgeState) (p : Nat)
    (htype : fields.lookup "type" = some (.strV MESSAGE_TYPE_READY))
    (hslot : s.connectionsRequested.lookup O = some p) :
    handleMessage ⟨O, w, .objV fields⟩ s =
      .ok { s with
            conns := (s.nextConn,
              { origin := O, messageFrame := w, nextId := 0 }) :: s.conns
            nextConn := s.nextConn + 1
            promises :=
              settlePromise s.promises p (.resolved (.conn s.nextConn)) } := by
  simp [handleMessage, getProp, htype, MESSAGE_TYPE_READY, hslot]

theorem handleMessage_response_none (O : String) (w : Nat)
    (fields : List (String × JValue)) (s : BridgeState)
    (htype : fields.lookup "type" = some (.strV MESSAGE_TYPE_RESPONSE))
    (hkey : s.responseHandlers.lookup
        (O ++ "/" ++ jsToString ((fields.lookup "id").getD .undefV)) = none) :
    handleMessage ⟨O, w, .objV fields⟩ s = .ok s := by
  simp [handleMessage, getProp, Except.toOption, htype, MESSAGE_TYPE_READY, MESSAGE_TYPE_RESPONSE, hkey]

theorem handleMessage_response_err (O : String) (w : Nat)
    (fields : List (String × JValue)) (s : BridgeState) (p : Nat)
    (errv : JValue)
    (htype : fields.lookup "type" = some (.strV MESSAGE_TYPE_RESPONSE))
    (hkey : s.responseHandlers.lookup
        (O ++ "/" ++ jsToString ((fields.lookup "id").getD .undefV)) = some p)
    (herr : fields.lookup "err" = some errv) :
    handleMessage ⟨O, w, .objV fields⟩ s =
      .ok { s with
            responseHandlers := deleteKey s.responseHandlers
              (O ++ "/" ++ jsToString ((fields.lookup "id").getD .undefV))
            promises := settlePromise s.promises p (.rejected errv) } := by
  simp [handleMessage, getProp, hasProp, Except.toOption, htype, MESSAGE_TYPE_READY,
    MESSAGE_TYPE_RESPONSE, hkey, herr]

theorem handleMessage_response_noerr (O : String) (w : Nat)
    (fields : List (String × JValue)) (s : BridgeState) (p : Nat)
    (htype : fields.lookup "type" = some (.strV MESSAGE_TYPE_RESPONSE))
    (hkey : s.responseHandlers.lookup
        (O ++ "/" ++ jsToString ((fields.lookup "id").getD .undefV)) = some p)
    (herr : fields.lookup "err" = none) :
    handleMessage ⟨O, w, .objV fields⟩ s =
      .ok { s with
            responseHandlers := deleteKey s.responseHandlers
              (O ++ "/" ++ jsToString ((fields.lookup "id").getD .undefV))
            promises := settlePromise s.promises p
              (.resolved (.val ((fields.lookup "body").getD .undefV))) } := by
  simp [handleMessage, getProp, hasProp, Except.toOption, htype, MESSAGE_TYPE_READY,
    MESSAGE_TYPE_RESPONSE, hkey, herr]

/-! The claims. -/

/-- C1: for a pending request with id `I` on the connection bound to
origin `O`, handling a `RESPONSE` message from `O` carrying id `I`
settles that request's promise exactly once — rejected with the `err`
value when an `err` field is present, resolved with the body otherwise —
and removes the pending entry, so handling the same message again leaves
the state (in particular the promise) untouched. -/
theorem claim_C1_response_settles_once (O : String) (w I p : Nat)
    (fields : List (String × JValue)) (s : BridgeState)
    (htype : fields.lookup "type" = some (.strV MESSAGE_TYPE_RESPONSE))
    (hid : fields.lookup "id" = some (.numV I))
    (hkey : s.responseHandlers.lookup (O ++ "/" ++ toString I) = some p)
    (hpend : s.promises.lookup p = some .pending) :
    ∃ s', handleMessage ⟨O, w, .objV fields⟩ s = .ok s' ∧
      (∀ errv, fields.lookup "err" = some errv →
        s'.promises.lookup p = some (.rejected errv)) ∧
      (fields.lookup "err" = none →
        s'.promises.lookup p =
          some (.resolved (.val ((fields.lookup "body").getD .undefV)))) ∧
      s'.responseHandlers.lookup (O ++ "/" ++ toString I) = none ∧
      handleMessage ⟨O, w, .objV fields⟩ s' = .ok s' := by
  have hkey' : s.responseHandlers.lookup
      (O ++ "/" ++ jsToString ((fields.lookup "id").getD .undefV)) = some p := by
    rw [hid]; exact hkey
  cases herr : fields.lookup "err" with
  | some errv =>
    refine ⟨_, handleMessage_response_err O w fields s p errv htype hkey' herr,
      ?_, ?_, ?_, ?_⟩
    · intro errv' h
      injection h with h
      subst h
      exact lookup_settlePromise_self s.promises p _ hpend
    · intro h; exact absurd h (by simp)
    · show (deleteKey s.responseHandlers _).lookup _ = none
      rw [hid]
      exact lookup_deleteKey_self _ _
    · apply handleMessage_response_none O w fields _ htype
      show (deleteKey s.responseHandlers _).lookup _ = none
      exact lookup_deleteKey_self _ _
  | none =>
    refine ⟨_, handleMessage_response_noerr O w fields s p htype hkey' herr,
      ?_, ?_, ?_, ?_⟩
    · intro errv' h; exact absurd h (by simp)
    · intro _
      exact lookup_settlePromise_self s.promises p _ hpend
    · show (deleteKey s.responseHandlers _).lookup _ = none
      rw [hid]
      exact lookup_deleteKey_self _ _
    · apply handleMessage_response_none O w fields _ htype
      show (deleteKey s.responseHandlers _).lookup _ = none
      exact lookup_deleteKey_self _ _

/-- Witness for C1 at a concrete input: one rejecting response, with the
hypotheses discharged on an explicit state. -/
theorem claim_C1_response_settles_once_witness :
    ([(("type" : String), JValue.strV MESSAGE_TYPE_RESPONSE),
      ("id", JValue.numV 0), ("err", JValue.strV "boom")].lookup "type"
        = some (.strV MESSAGE_TYPE_RESPONSE)) ∧
    ([(("type" : String), JValue.strV MESSAGE_TYPE_RESPONSE),
      ("id", JValue.numV 0), ("err", JValue.strV "boom")].lookup "id"
        = some (.numV 0)) ∧
    (∃ s', handleMessage ⟨"o", 9,
        .objV [("type", .strV MESSAGE_TYPE_RESPONSE),
               ("id", .numV 0), ("err", .strV "boom")]⟩
        { initState with
          responseHandlers := [("o/0", 5)]
          promises := [(5, .pending)]
          nextPromise := 6 } = .ok s' ∧
      s'.promises.lookup 5 = some (.rejected (.strV "boom")) ∧
      s'.responseHandlers.lookup ("o" ++ "/" ++ toString 0) = none) := by
  refine ⟨rfl, rfl, ?_⟩
  obtain ⟨s', h1, h2, _, h4, _⟩ :=
    claim_C1_response_settles_once "o" 9 0 5
      [("type", .strV MESSAGE_TYPE_RESPONSE),
       ("id", .numV 0), ("err", .strV "boom")]
      { initState with
        responseHandlers := [("o/0", 5)]
        promises := [(5, .pending)]
        nextPromise := 6 } rfl rfl rfl rfl
  exact ⟨s', h1, h2 _ rfl, h4⟩

/-- C9: a matching `RESPONSE` that carries neither a `body` nor an `err`
field resolves the request's promise with `undefined` — the rejection
path is selected solely by the presence of `err`. -/
theorem claim_C9_bodyless_response_resolves_undefined (O : String)
    (w I p : Nat) (fields : List (String × JValue)) (s : BridgeState)
    (htype : fields.lookup "type" = some (.strV MESSAGE_TYPE_RESPONSE))
    (hid : fields.lookup "id" = some (.numV I))
    (hkey : s.responseHandlers.lookup (O ++ "/" ++ toString I) = some p)
    (hpend : s.promises.lookup p = some .pending)
    (herr : fields.lookup "err" = none)
    (hbody : fields.lookup "body" = none) :
    ∃ s', handleMessage ⟨O, w, .objV fields⟩ s = .ok s' ∧
      s'.promises.lookup p = some (.resolved (.val .undefV)) := by
  have hkey' : s.responseHandlers.lookup
      (O ++ "/" ++ jsToString ((fields.lookup "id").getD .undefV)) = some p := by
    rw [hid]; exact hkey
  refine ⟨_, handleMessage_response_noerr O w fields s p htype hkey' herr, ?_⟩
  show (settlePromise s.promises p _).lookup p = _
  rw [hbody]
  exact lookup_settlePromise_self s.promises p _ hpend

/-- Witness for C9 on an explicit state and a response with only the
discriminant and the id. -/
theorem claim_C9_bodyless_response_resolves_undefined_witness :
    ([(("type" : String), JValue.strV MESSAGE_TYPE_RESPONSE),
      ("id", JValue.numV 3)].lookup "err" = none) ∧
    ([(("type" : String), JValue.strV MESSAGE_TYPE_RESPONSE),
      ("id", JValue.numV 3)].lookup "body" = none) ∧
    (∃ s', handleMessage ⟨"o", 2,
        .objV [("type", .strV MESSAGE_TYPE_RESPONSE), ("id", .numV 3)]⟩
        { initState with
          responseHandlers := [("o/3", 4)]
          promises := [(4, .pending)]
          nextPromise := 5 } = .ok s' ∧
      s'.promises.lookup 4 = some (.resolved (.val .undefV))) :=
  ⟨rfl, rfl,
    claim_C9_bodyless_response_resolves_undefined "o" 2 3 4
      [("type", .strV MESSAGE_TYPE_RESPONSE), ("id", .numV 3)]
      { initState with
        responseHandlers := [("o/3", 4)]
        promises := [(4, .pending)]
        nextPromise := 5 } rfl rfl rfl rfl rfl rfl⟩

/-- C6: an unmatched `RESPONSE` (no pending entry under its
`(origin, id)` key) and an unmatched `READY` (no pending connect slot
for the origin) are complete no-ops: `handleMessage` returns the state
unchanged and raises nothing. -/
theorem claim_C6_unmatched_messages_are_noops (O : String) (w : Nat)
    (fields : List (String × JValue)) (s : BridgeState) :
    (fields.lookup "type" = some (.strV MESSAGE_TYPE_RESPONSE) →
      s.responseHandlers.lookup
        (O ++ "/" ++ jsToString ((fields.lookup "id").getD .undefV)) = none →
      handleMessage ⟨O, w, .objV fields⟩ s = .ok s) ∧
    (fields.lookup "type" = some (.strV MESSAGE_TYPE_READY) →
      s.connectionsRequested.lookup O = none →
      handleMessage ⟨O, w, .objV fields⟩ s = .ok s) :=
  ⟨fun htype hkey => handleMessage_response_none O w fields s htype hkey,
   fun htype hslot => handleMessage_ready_none O w fields s htype hslot⟩

/-- Witness for C6: a response for a never-requested id and a stray
ready, both against the empty initial state. -/
theorem claim_C6_unmatched_messages_are_noops_witness :
    (handleMessage ⟨"o", 0,
      .objV [("type", .strV MESSAGE_TYPE_RESPONSE), ("id", .numV 7)]⟩
      initState = .ok initState) ∧
    (handleMessage ⟨"o", 0, .objV [("type", .strV MESSAGE_TYPE_READY)]⟩
      initState = .ok initState) :=
  ⟨(claim_C6_unmatched_messages_are_noops "o" 0
      [("type", .strV MESSAGE_TYPE_RESPONSE), ("id", .numV 7)]
      initState).1 rfl rfl,
   (claim_C6_unmatched_messages_are_noops "o" 0
      [("type", .strV MESSAGE_TYPE_READY)] initState).2 rfl rfl⟩

/-- C10: the pending connection slot is never removed, so a second
`READY` from an already-connected origin re-enters the resolution
branch, constructs a fresh connection object bound to the new source
window, and invokes the stored resolver again — yet the promise keeps
the connection produced by the first `READY`, because settling an
already-settled promise has no effect. -/
theorem claim_C10_second_ready_keeps_first_connection (O : String)
    (w1 w2 p : Nat) (d1 d2 : List (String × JValue)) (s : BridgeState)
    (hslot : s.connectionsRequested.lookup O = some p)
    (hpend : s.promises.lookup p = some .pending)
    (ht1 : d1.lookup "type" = some (.strV MESSAGE_TYPE_READY))
    (ht2 : d2.lookup "type" = some (.strV MESSAGE_TYPE_READY)) :
    ∃ s1 s2,
      handleMessage ⟨O, w1, .objV d1⟩ s = .ok s1 ∧
      handleMessage ⟨O, w2, .objV d2⟩ s1 = .ok s2 ∧
      s1.connectionsRequested.lookup O = some p ∧
      s1.promises.lookup p = some (.resolved (.conn s.nextConn)) ∧
      s1.conns.lookup s.nextConn =
        some { origin := O, messageFrame := w1, nextId := 0 } ∧
      s2.conns.lookup s1.nextConn =
        some { origin := O, messageFrame := w2, nextId := 0 } ∧
      s2.nextConn = s.nextConn + 2 ∧
      s2.promises.lookup p = some (.resolved (.conn s.nextConn)) := by
  refine ⟨_, _, handleMessage_ready_found O w1 d1 s p ht1 hslot,
    handleMessage_ready_found O w2 d2 _ p ht2 hslot, hslot,
    lookup_settlePromise_self s.promises p _ hpend,
    lookup_cons_self _ _ _, lookup_cons_self _ _ _, rfl, ?_⟩
  show (settlePromise (settlePromise s.promises p _) p _).lookup p = _
  exact lookup_settlePromise_resolved _ p _ _
    (lookup_settlePromise_self s.promises p _ hpend)

/-- Witness for C10: two ready messages from the same origin with
different source windows, against an explicit pending slot. -/
theorem claim_C10_second_ready_keeps_first_connection_witness :
    (({ initState with
        connectionsRequested := [("o", 0)]
        promises := [(0, .pending)]
        nextPromise := 1 } : BridgeState).connectionsRequested.lookup "o"
      = some 0) ∧
    (∃ s1 s2,
      handleMessage ⟨"o", 11, .objV [("type", .strV MESSAGE_TYPE_READY)]⟩
        { initState with
          connectionsRequested := [("o", 0)]
          promises := [(0, .pending)]
          nextPromise := 1 } = .ok s1 ∧
      handleMessage ⟨"o", 22, .objV [("type", .strV MESSAGE_TYPE_READY)]⟩
        s1 = .ok s2 ∧
      s1.connectionsRequested.lookup "o" = some 0 ∧
      s1.promises.lookup 0 = some (.resolved (.conn 0)) ∧
      s1.conns.lookup 0 =
        some { origin := "o", messageFrame := 11, nextId := 0 } ∧
      s2.conns.lookup s1.nextConn =
        some { origin := "o", messageFrame := 22, nextId := 0 } ∧
      s2.nextConn = 0 + 2 ∧
      s2.promises.lookup 0 = some (.resolved (.conn 0))) :=
  ⟨rfl,
    claim_C10_second_ready_keeps_first_connection "o" 11 22 0
      [("type", .strV MESSAGE_TYPE_READY)]
      [("type", .strV MESSAGE_TYPE_READY)]
      { initState with
        connectionsRequested := [("o", 0)]
        promises := [(0, .pending)]
        nextPromise := 1 } rfl rfl rfl rfl⟩

/-- C5 counterexample: the claim says every message whose data lacks the
discriminant — "including data that is not an object at all, such as
null" — is ignored without raising.  But `e.data.type` on `null` data
throws a TypeError before the switch is reached, so the handler raises
on this concrete event instead of ignoring it. -/
theorem claim_C5_counterexample_null_data_throws :
    handleMessage ⟨"https://attacker.example", 0, .nullV⟩ initState
      = .error () := rfl

/-- C5 (amended): for every inbound message event whose data is not
`null`/`undefined` and does not carry the discriminant `type` field
(a bare string, a number, a boolean, or an object without `type`), the
handler ignores the event without raising and without changing any
state; on `null` or `undefined` data the discriminant access itself
throws, still without changing any state. -/
theorem claim_C5_missing_discriminant_ignored (e : MessageEvent)
    (s : BridgeState) :
    (getProp e.data "type" = .ok .undefV →
      handleMessage e s = .ok s) ∧
    ((e.data = .nullV ∨ e.data = .undefV) →
      handleMessage e s = .error ()) := by
  constructor
  · intro h
    simp [handleMessage, h]
  · rintro (h | h) <;> rw [show e = ⟨e.origin, e.source, e.data⟩ from rfl, h] <;> rfl

/-- Witness for the amended C5: a bare-string datum is ignored against
the initial state, and a null datum throws. -/
theorem claim_C5_missing_discriminant_ignored_witness :
    (handleMessage ⟨"https://ext.example", 3, .strV "hello"⟩ initState
      = .ok initState) ∧
    (handleMessage ⟨"https://ext.example", 3, .nullV⟩ initState
      = .error ()) :=
  ⟨(claim_C5_missing_discriminant_ignored
      ⟨"https://ext.example", 3, .strV "hello"⟩ initState).1 rfl,
   (claim_C5_missing_discriminant_ignored
      ⟨"https://ext.example", 3, .nullV⟩ initState).2 (Or.inl rfl)⟩

/-- C3: a second (or any later) `connect` for the same origin returns
the very same promise (index) and leaves the state completely unchanged
— no second iframe, no second pending slot; frame insertion and slot
installation happen exactly on the first call for that origin. -/
theorem claim_C3_connect_idempotent_per_origin (O : String)
    (s : BridgeState) :
    connect O (connect O s).2 = connect O s ∧
    (s.connectionsPromised.lookup O = none →
      (connect O s).2.framesInserted = O :: s.framesInserted ∧
      (connect O s).2.connectionsRequested
        = (O, (connect O s).1) :: s.connectionsRequested) := by
  by_cases hf : s.addedMessageListener <;>
    cases h : s.connectionsPromised.lookup O <;>
      constructor <;>
        simp [connect, hf, h, lookup_cons_self]

/-- Witness for C3 from the initial state: the discharged first-call
conjuncts and the unchanged second call. -/
theorem claim_C3_connect_idempotent_per_origin_witness :
    initState.connectionsPromised.lookup "chrome-extension://e" = none ∧
    connect "chrome-extension://e"
        (connect "chrome-extension://e" initState).2
      = connect "chrome-extension://e" initState ∧
    (connect "chrome-extension://e" initState).2.framesInserted
      = "chrome-extension://e" :: initState.framesInserted ∧
    (connect "chrome-extension://e" initState).2.connectionsRequested
      = ("chrome-extension://e",
          (connect "chrome-extension://e" initState).1)
        :: initState.connectionsRequested :=
  ⟨rfl,
   (claim_C3_connect_idempotent_per_origin "chrome-extension://e"
      initState).1,
   ((claim_C3_connect_idempotent_per_origin "chrome-extension://e"
      initState).2 rfl).1,
   ((claim_C3_connect_idempotent_per_origin "chrome-extension://e"
      initState).2 rfl).2⟩

/-! C7: the listener is installed at most once. -/

theorem connectSeq_cons (o : String) (os : List String) (s : BridgeState) :
    connectSeq (o :: os) s = connectSeq os (connect o s).2 := rfl

theorem connect_flag_true (o : String) (s : BridgeState) :
    (connect o s).2.addedMessageListener = true := by
  by_cases hf : s.addedMessageListener <;>
    rcases hl : List.lookup o s.connectionsPromised with _ | p <;>
      simp [connect, hf, hl]

theorem connect_count_inv (o : String) (s : BridgeState)
    (h : s.listenerInstallCount = if s.addedMessageListener then 1 else 0) :
    (connect o s).2.listenerInstallCount
      = if (connect o s).2.addedMessageListener then 1 else 0 := by
  by_cases hf : s.addedMessageListener <;>
    rcases hl : List.lookup o s.connectionsPromised with _ | p <;>
      simp [hf] at h <;> simp [connect, hf, hl, h]

theorem connectSeq_flag_true (os : List String) (s : BridgeState)
    (h : s.addedMessageListener = true) :
    (connectSeq os s).addedMessageListener = true := by
  induction os generalizing s with
  | nil => exact h
  | cons o rest ih =>
    rw [connectSeq_cons]
    exact ih _ (connect_flag_true o s)

theorem connectSeq_count_inv (os : List String) (s : BridgeState)
    (h : s.listenerInstallCount = if s.addedMessageListener then 1 else 0) :
    (connectSeq os s).listenerInstallCount
      = if (connectSeq os s).addedMessageListener then 1 else 0 := by
  induction os generalizing s with
  | nil => exact h
  | cons o rest ih =>
    rw [connectSeq_cons]
    exact ih _ (connect_count_inv o s h)

/-- C7: across every sequence of `connect` calls from process start, at
most one listener registration ever happens, and after the first call
exactly one has happened: no later `connect` installs the listener a
second time. -/
theorem claim_C7_listener_installed_once (origins : List String) :
    (connectSeq origins initState).listenerInstallCount ≤ 1 ∧
    (origins ≠ [] →
      (connectSeq origins initState).listenerInstallCount = 1) := by
  have hinv := connectSeq_count_inv origins initState rfl
  constructor
  · rw [hinv]
    split <;> simp
  · intro hne
    obtain ⟨o, rest, rfl⟩ := List.exists_cons_of_ne_nil hne
    have hflag : (connectSeq (o :: rest) initState).addedMessageListener
        = true := by
      rw [connectSeq_cons]
      exact connectSeq_flag_true rest _ (connect_flag_true o initState)
    rw [hinv, hflag]
    rfl

/-- Witness for C7 on a concrete three-call sequence with a repeated
origin. -/
theorem claim_C7_listener_installed_once_witness :
    (connectSeq ["a", "b", "a"] initState).listenerInstallCount ≤ 1 ∧
    (connectSeq ["a", "b", "a"] initState).listenerInstallCount = 1 :=
  ⟨(claim_C7_listener_installed_once ["a", "b", "a"]).1,
   (claim_C7_listener_installed_once ["a", "b", "a"]).2 (by simp)⟩

/-! C4: id allocation on a connection. -/

theorem request_found (cid : Nat) (b : JValue) (s : BridgeState)
    (c : ExtConnection) (hc : s.conns.lookup cid = some c) :
    ExtConnection.request cid b s = some (s.nextPromise,
      { s with
        conns := s.conns.map fun q =>
          if q.1 = cid then (q.1, { c with nextId := c.nextId + 1 }) else q
        promises := (s.nextPromise, .pending) :: s.promises
        nextPromise := s.nextPromise + 1
        responseHandlers :=
          (c.origin ++ "/" ++ jsToString (.numV c.nextId), s.nextPromise)
            :: s.responseHandlers
        sentMessages :=
          { target := c.messageFrame
            targetOrigin := c.origin
            data := .objV [("type", .strV MESSAGE_TYPE_REQUEST),
                           ("id", .numV c.nextId),
                           ("body", b)] } :: s.sentMessages }) := by
  simp [ExtConnection.request, hc]

theorem msgId_request (t : Nat) (o : String) (n : Nat) (b : JValue) :
    msgId { target := t, targetOrigin := o,
            data := .objV [("type", .strV MESSAGE_TYPE_REQUEST),
                           ("id", .numV n), ("body", b)] } = some n := rfl

theorem handleMessage_ok_frame_facts (e : MessageEvent) (s s' : BridgeState)
    (h : handleMessage e s = .ok s') (cid : Nat) (hlt : cid < s.nextConn) :
    s'.sentMessages = s.sentMessages ∧
    s'.conns.lookup cid = s.conns.lookup cid ∧
    s.nextConn ≤ s'.nextConn := by
  rcases hd : getProp e.data "type" with u | mt
  · simp [handleMessage, hd] at h
  · cases mt with
    | strV t =>
      by_cases ht : t = MESSAGE_TYPE_READY
      · rcases hslot : s.connectionsRequested.lookup e.origin with _ | p
        · simp only [handleMessage, hd, if_pos ht, hslot] at h
          injection h with h
          subst h
          exact ⟨rfl, rfl, le_refl _⟩
        · simp only [handleMessage, hd, if_pos ht, hslot] at h
          injection h with h
          subst h
          refine ⟨rfl, ?_, Nat.le_succ _⟩
          exact lookup_cons_ne _ _ (Nat.ne_of_lt hlt)
      · by_cases ht2 : t = MESSAGE_TYPE_RESPONSE
        · rcases hkey : s.responseHandlers.lookup
              (e.origin ++ "/" ++
                jsToString ((getProp e.data "id").toOption.getD .undefV))
              with _ | p
          · simp only [handleMessage, hd, if_neg ht, if_pos ht2, hkey] at h
            injection h with h
            subst h
            exact ⟨rfl, rfl, le_refl _⟩
          · by_cases herr : hasProp e.data "err" <;>
              simp only [handleMessage, hd, if_neg ht, if_pos ht2, hkey,
                herr, if_true, if_false, Bool.false_eq_true] at h <;>
              injection h with h <;> subst h <;>
              exact ⟨rfl, rfl, le_refl _⟩
        · simp only [handleMessage, hd, if_neg ht, if_neg ht2] at h
          injection h with h
          subst h
          exact ⟨rfl, rfl, le_refl _⟩
    | nullV =>
      simp only [handleMessage, hd] at h
      injection h with h; subst h; exact ⟨rfl, rfl, le_refl _⟩
    | undefV =>
      simp only [handleMessage, hd] at h
      injection h with h; subst h; exact ⟨rfl, rfl, le_refl _⟩
    | boolV b =>
      simp only [handleMessage, hd] at h
      injection h with h; subst h; exact ⟨rfl, rfl, le_refl _⟩
    | numV n =>
      simp only [handleMessage, hd] at h
      injection h with h; subst h; exact ⟨rfl, rfl, le_refl _⟩
    | objV fs =>
      simp only [handleMessage, hd] at h
      injection h with h; subst h; exact ⟨rfl, rfl, le_refl _⟩

theorem sentRequestIds_cons (s s' : BridgeState) (m : SentMessage) (n : Nat)
    (h : s'.sentMessages = m :: s.sentMessages) (hm : msgId m = some n) :
    sentRequestIds s' = sentRequestIds s ++ [n] := by
  simp [sentRequestIds, h, hm]

theorem runScript_ids (cid : Nat) (acts : List ConnAction) (s : BridgeState)
    (c : ExtConnection) (hc : s.conns.lookup cid = some c)
    (hlt : cid < s.nextConn) :
    ∃ s', runScript cid acts s = some s' ∧
      sentRequestIds s' = sentRequestIds s
        ++ List.range' c.nextId (numReqs acts) ∧
      s'.conns.lookup cid = some { c with nextId := c.nextId + numReqs acts } ∧
      cid < s'.nextConn := by
  induction acts generalizing s c with
  | nil =>
    refine ⟨s, rfl, by simp [numReqs], ?_, hlt⟩
    simpa [numReqs] using hc
  | cons a rest ih =>
    cases a with
    | req b =>
      have hreq := request_found cid b s c hc
      have hc1 : List.lookup cid (s.conns.map fun q =>
          if q.1 = cid then (q.1, { c with nextId := c.nextId + 1 }) else q)
          = some { c with nextId := c.nextId + 1 } :=
        lookup_map_setConn s.conns cid c _ hc
      obtain ⟨s', hrun, hids, hconn, hnc⟩ :=
        ih { s with
              conns := s.conns.map fun q =>
                if q.1 = cid then (q.1, { c with nextId := c.nextId + 1 })
                else q
              promises := (s.nextPromise, .pending) :: s.promises
              nextPromise := s.nextPromise + 1
              responseHandlers :=
                (c.origin ++ "/" ++ jsToString (.numV c.nextId),
                  s.nextPromise) :: s.responseHandlers
              sentMessages :=
                { target := c.messageFrame
                  targetOrigin := c.origin
                  data := .objV [("type", .strV MESSAGE_TYPE_REQUEST),
                                 ("id", .numV c.nextId),
                                 ("body", b)] } :: s.sentMessages }
          { c with nextId := c.nextId + 1 } hc1 hlt
      have hnum : numReqs (ConnAction.req b :: rest) = numReqs rest + 1 := by
        simp [numReqs]
      refine ⟨s', ?_, ?_, ?_, hnc⟩
      · simp only [runScript, hreq]
        exact hrun
      · rw [hids, sentRequestIds_cons s _ _ c.nextId rfl (msgId_request _ _ _ _),
          hnum, List.range'_succ, List.append_assoc]
        rfl
      · rw [hnum]
        simpa [Nat.add_comm, Nat.add_assoc, Nat.add_left_comm] using hconn
    | deliver e =>
      have hnum : numReqs (ConnAction.deliver e :: rest) = numReqs rest := by
        simp [numReqs]
      rcases hm : handleMessage e s with u | s1
      · obtain ⟨s', hrun, hids, hconn, hnc⟩ := ih s c hc hlt
        refine ⟨s', ?_, ?_, ?_, hnc⟩
        · simp only [runScript, hm]; exact hrun
        · rw [hnum]; exact hids
        · rw [hnum]; exact hconn
      · obtain ⟨hsm, hcl, hle⟩ := handleMessage_ok_frame_facts e s s1 hm cid hlt
        have hc1 : s1.conns.lookup cid = some c := by rw [hcl]; exact hc
        obtain ⟨s', hrun, hids, hconn, hnc⟩ :=
          ih s1 c hc1 (Nat.lt_of_lt_of_le hlt hle)
        refine ⟨s', ?_, ?_, ?_, hnc⟩
        · simp only [runScript, hm]; exact hrun
        · rw [hnum, hids]
          have : sentRequestIds s1 = sentRequestIds s := by
            simp [sentRequestIds, hsm]
          rw [this]
        · rw [hnum]; exact hconn

/-- C4: for every script of successive `request` calls on a connection
born with counter 0 — with arbitrary inbound messages (responses
included) delivered in between — the allocated request ids, as they
appear in the posted `REQUEST` messages in issue order, are exactly
`0, 1, 2, …`: pairwise distinct, strictly increasing, starting at 0,
and never reused even after a response for an id has been handled. -/
theorem claim_C4_request_ids_distinct_increasing (cid : Nat)
    (acts : List ConnAction) (s : BridgeState) (c : ExtConnection)
    (hc : s.conns.lookup cid = some c) (h0 : c.nextId = 0)
    (hlt : cid < s.nextConn) :
    ∃ s', runScript cid acts s = some s' ∧
      sentRequestIds s' = sentRequestIds s ++ List.range (numReqs acts) ∧
      (List.range (numReqs acts)).Nodup ∧
      List.Sorted (· < ·) (List.range (numReqs acts)) ∧
      (0 < numReqs acts → (List.range (numReqs acts)).head? = some 0) := by
  obtain ⟨s', hrun, hids, hconn, hnc⟩ := runScript_ids cid acts s c hc hlt
  refine ⟨s', hrun, ?_, List.nodup_range _, List.sorted_lt_range _, ?_⟩
  · rw [hids, h0, ← List.range_eq_range']
  · intro hpos
    obtain ⟨m, hm⟩ := Nat.exists_eq_succ_of_ne_zero (Nat.pos_iff_ne_zero.mp hpos)
    rw [hm, List.range_succ_eq_map]
    rfl

/-- Witness for C4: two requests with a response delivered in between,
on the connection produced by a completed handshake. -/
theorem claim_C4_request_ids_distinct_increasing_witness :
    (({ initState with
        conns := [(0, { origin := "o", messageFrame := 7, nextId := 0 })]
        nextConn := 1 } : BridgeState).conns.lookup 0
      = some { origin := "o", messageFrame := 7, nextId := 0 }) ∧
    (∃ s', runScript 0
        [.req .nullV,
         .deliver ⟨"o", 7, .objV [("type", .strV MESSAGE_TYPE_RESPONSE),
           ("id", .numV 0), ("body", .strV "r")]⟩,
         .req .nullV]
        { initState with
          conns := [(0, { origin := "o", messageFrame := 7, nextId := 0 })]
          nextConn := 1 } = some s' ∧
      sentRequestIds s' = sentRequestIds
        { initState with
          conns := [(0, { origin := "o", messageFrame := 7, nextId := 0 })]
          nextConn := 1 } ++ List.range (numReqs
        [.req .nullV,
         .deliver ⟨"o", 7, .objV [("type", .strV MESSAGE_TYPE_RESPONSE),
           ("id", .numV 0), ("body", .strV "r")]⟩,
         .req .nullV]) ∧
      (List.range (numReqs
        [ConnAction.req .nullV,
         .deliver ⟨"o", 7, .objV [("type", .strV MESSAGE_TYPE_RESPONSE),
           ("id", .numV 0), ("body", .strV "r")]⟩,
         .req .nullV])).Nodup ∧
      List.Sorted (· < ·) (List.range (numReqs
        [ConnAction.req .nullV,
         .deliver ⟨"o", 7, .objV [("type", .strV MESSAGE_TYPE_RESPONSE),
           ("id", .numV 0), ("body", .strV "r")]⟩,
         .req .nullV])) ∧
      (0 < numReqs
        [ConnAction.req .nullV,
         .deliver ⟨"o", 7, .objV [("type", .strV MESSAGE_TYPE_RESPONSE),
           ("id", .numV 0), ("body", .strV "r")]⟩,
         .req .nullV] → (List.range (numReqs
        [ConnAction.req .nullV,
         .deliver ⟨"o", 7, .objV [("type", .strV MESSAGE_TYPE_RESPONSE),
           ("id", .numV 0), ("body", .strV "r")]⟩,
         .req .nullV])).head? = some 0)) :=
  ⟨rfl, claim_C4_request_ids_distinct_increasing 0
    [.req .nullV,
     .deliver ⟨"o", 7, .objV [("type", .strV MESSAGE_TYPE_RESPONSE),
       ("id", .numV 0), ("body", .strV "r")]⟩,
     .req .nullV]
    { initState with
      conns := [(0, { origin := "o", messageFrame := 7, nextId := 0 })]
      nextConn := 1 }
    { origin := "o", messageFrame := 7, nextId := 0 }
    rfl rfl (by decide)⟩

/-! C2: responses are matched by `(origin, id)`, not by arrival order. -/

/-- C2: after a handshake and two requests (allocated ids 0 and 1), the
two responses settle the promise of the request bearing their own id,
whether they are delivered in reverse order or in order. -/
theorem claim_C2_responses_matched_by_id (O : String) (w : Nat)
    (r0 r1 B0 B1 : JValue) :
    ∃ s2 p0 s3 p1 s4,
      handleMessage ⟨O, w, .objV [("type", .strV MESSAGE_TYPE_READY)]⟩
        (connect O initState).2 = .ok s2 ∧
      ExtConnection.request 0 r0 s2 = some (p0, s3) ∧
      ExtConnection.request 0 r1 s3 = some (p1, s4) ∧
      p0 ≠ p1 ∧
      s4.sentMessages.map msgId = [some 1, some 0] ∧
      (∃ s5 s6,
        handleMessage ⟨O, w, .objV [("type", .strV MESSAGE_TYPE_RESPONSE),
          ("id", .numV 1), ("body", B1)]⟩ s4 = .ok s5 ∧
        handleMessage ⟨O, w, .objV [("type", .strV MESSAGE_TYPE_RESPONSE),
          ("id", .numV 0), ("body", B0)]⟩ s5 = .ok s6 ∧
        s6.promises.lookup p0 = some (.resolved (.val B0)) ∧
        s6.promises.lookup p1 = some (.resolved (.val B1))) ∧
      (∃ s5 s6,
        handleMessage ⟨O, w, .objV [("type", .strV MESSAGE_TYPE_RESPONSE),
          ("id", .numV 0), ("body", B0)]⟩ s4 = .ok s5 ∧
        handleMessage ⟨O, w, .objV [("type", .strV MESSAGE_TYPE_RESPONSE),
          ("id", .numV 1), ("body", B1)]⟩ s5 = .ok s6 ∧
        s6.promises.lookup p0 = some (.resolved (.val B0)) ∧
        s6.promises.lookup p1 = some (.resolved (.val B1))) := by
  have hne : (O ++ "/" ++ "0") ≠ (O ++ "/" ++ "1") :=
    append_right_ne _ (by decide)
  have hne' : (O ++ "/" ++ "1") ≠ (O ++ "/" ++ "0") :=
    append_right_ne _ (by decide)
  have hts0 : (toString (0 : Nat) : String) = "0" := rfl
  have hts1 : (toString (1 : Nat) : String) = "1" := rfl
  have hbe01 : ((O ++ "/" ++ "0") == (O ++ "/" ++ "1")) = false :=
    beq_false_of_ne hne
  have hbe10 : ((O ++ "/" ++ "1") == (O ++ "/" ++ "0")) = false :=
    beq_false_of_ne hne'
  refine ⟨{ addedMessageListener := true
            listenerInstallCount := 1
            connectionsPromised := [(O, 0)]
            connectionsRequested := [(O, 0)]
            responseHandlers := []
            promises := [(0, .resolved (.conn 0))]
            nextPromise := 1
            conns := [(0, { origin := O, messageFrame := w, nextId := 0 })]
            nextConn := 1
            framesInserted := [O]
            sentMessages := [] }, 1,
    { addedMessageListener := true
      listenerInstallCount := 1
      connectionsPromised := [(O, 0)]
      connectionsRequested := [(O, 0)]
      responseHandlers := [(O ++ "/" ++ "0", 1)]
      promises := [(1, .pending), (0, .resolved (.conn 0))]
      nextPromise := 2
      conns := [(0, { origin := O, messageFrame := w, nextId := 1 })]
      nextConn := 1
      framesInserted := [O]
      sentMessages := [⟨w, O, .objV [("type", .strV MESSAGE_TYPE_REQUEST),
        ("id", .numV 0), ("body", r0)]⟩] }, 2,
    { addedMessageListener := true
      listenerInstallCount := 1
      connectionsPromised := [(O, 0)]
      connectionsRequested := [(O, 0)]
      responseHandlers := [(O ++ "/" ++ "1", 2), (O ++ "/" ++ "0", 1)]
      promises := [(2, .pending), (1, .pending), (0, .resolved (.conn 0))]
      nextPromise := 3
      conns := [(0, { origin := O, messageFrame := w, nextId := 2 })]
      nextConn := 1
      framesInserted := [O]
      sentMessages := [⟨w, O, .objV [("type", .strV MESSAGE_TYPE_REQUEST),
        ("id", .numV 1), ("body", r1)]⟩,
        ⟨w, O, .objV [("type", .strV MESSAGE_TYPE_REQUEST),
        ("id", .numV 0), ("body", r0)]⟩] },
    ?_, ?_, ?_, by decide, ?_, ?_, ?_⟩
  · simp [connect, initState, handleMessage, getProp, MESSAGE_TYPE_READY,
      List.lookup, settlePromise]
  · simp [ExtConnection.request, List.lookup, jsToString, settlePromise, hts0]
  · simp [ExtConnection.request, List.lookup, jsToString, settlePromise, hts1]
  · rfl
  · refine ⟨{ addedMessageListener := true
              listenerInstallCount := 1
              connectionsPromised := [(O, 0)]
              connectionsRequested := [(O, 0)]
              responseHandlers := [(O ++ "/" ++ "0", 1)]
              promises := [(2, .resolved (.val B1)), (1, .pending),
                (0, .resolved (.conn 0))]
              nextPromise := 3
              conns := [(0, { origin := O, messageFrame := w, nextId := 2 })]
              nextConn := 1
              framesInserted := [O]
              sentMessages := [⟨w, O,
                .objV [("type", .strV MESSAGE_TYPE_REQUEST),
                ("id", .numV 1), ("body", r1)]⟩,
                ⟨w, O, .objV [("type", .strV MESSAGE_TYPE_REQUEST),
                ("id", .numV 0), ("body", r0)]⟩] },
      { addedMessageListener := true
        listenerInstallCount := 1
        connectionsPromised := [(O, 0)]
        connectionsRequested := [(O, 0)]
        responseHandlers := []
        promises := [(2, .resolved (.val B1)), (1, .resolved (.val B0)),
          (0, .resolved (.conn 0))]
        nextPromise := 3
        conns := [(0, { origin := O, messageFrame := w, nextId := 2 })]
        nextConn := 1
        framesInserted := [O]
        sentMessages := [⟨w, O, .objV [("type", .strV MESSAGE_TYPE_REQUEST),
          ("id", .numV 1), ("body", r1)]⟩,
          ⟨w, O, .objV [("type", .strV MESSAGE_TYPE_REQUEST),
          ("id", .numV 0), ("body", r0)]⟩] },
      ?_, ?_, rfl, rfl⟩
    · simp [handleMessage, getProp, hasProp, Except.toOption,
        MESSAGE_TYPE_READY, MESSAGE_TYPE_RESPONSE, List.lookup, jsToString,
        settlePromise, deleteKey, List.filter, hne, hne', hts0, hts1,
        hbe01, hbe10]
    · simp [handleMessage, getProp, hasProp, Except.toOption,
        MESSAGE_TYPE_READY, MESSAGE_TYPE_RESPONSE, List.lookup, jsToString,
        settlePromise, deleteKey, List.filter, hne, hne', hts0, hts1,
        hbe01, hbe10]
  · refine ⟨{ addedMessageListener := true
              listenerInstallCount := 1
              connectionsPromised := [(O, 0)]
              connectionsRequested := [(O, 0)]
              responseHandlers := [(O ++ "/" ++ "1", 2)]
              promises := [(2, .pending), (1, .resolved (.val B0)),
                (0, .resolved (.conn 0))]
              nextPromise := 3
              conns := [(0, { origin := O, messageFrame := w, nextId := 2 })]
              nextConn := 1
              framesInserted := [O]
              sentMessages := [⟨w, O,
                .objV [("type", .strV MESSAGE_TYPE_REQUEST),
                ("id", .numV 1), ("body", r1)]⟩,
                ⟨w, O, .objV [("type", .strV MESSAGE_TYPE_REQUEST),
                ("id", .numV 0), ("body", r0)]⟩] },
      { addedMessageListener := true
        listenerInstallCount := 1
        connectionsPromised := [(O, 0)]
        connectionsRequested := [(O, 0)]
        responseHandlers := []
        promises := [(2, .resolved (.val B1)), (1, .resolved (.val B0)),
          (0, .resolved (.conn 0))]
        nextPromise := 3
        conns := [(0, { origin := O, messageFrame := w, nextId := 2 })]
        nextConn := 1
        framesInserted := [O]
        sentMessages := [⟨w, O, .objV [("type", .strV MESSAGE_TYPE_REQUEST),
          ("id", .numV 1), ("body", r1)]⟩,
          ⟨w, O, .objV [("type", .strV MESSAGE_TYPE_REQUEST),
          ("id", .numV 0), ("body", r0)]⟩] },
      ?_, ?_, rfl, rfl⟩
    · simp [handleMessage, getProp, hasProp, Except.toOption,
        MESSAGE_TYPE_READY, MESSAGE_TYPE_RESPONSE, List.lookup, jsToString,
        settlePromise, deleteKey, List.filter, hne, hne', hts0, hts1,
        hbe01, hbe10]
    · simp [handleMessage, getProp, hasProp, Except.toOption,
        MESSAGE_TYPE_READY, MESSAGE_TYPE_RESPONSE, List.lookup, jsToString,
        settlePromise, deleteKey, List.filter, hne, hne', hts0, hts1,
        hbe01, hbe10]

/-! C8: a connection promise is never rejected, and without a `READY`
from its origin it stays pending forever. -/

theorem mem_of_lookup_eq_some {α β : Type} [BEq α] [LawfulBEq α]
    {l : List (α × β)} {k : α} {v : β} (h : l.lookup k = some v) :
    (k, v) ∈ l := by
  induction l with
  | nil => simp [List.lookup] at h
  | cons a t ih =>
    obtain ⟨a1, a2⟩ := a
    by_cases hk : k = a1
    · subst hk
      rw [lookup_cons_self] at h
      injection h with h
      subst h
      exact List.mem_cons_self _ _
    · rw [lookup_cons_ne _ _ hk] at h
      exact List.mem_cons_of_mem _ (ih h)

theorem lookup_settlePromise_self_cases (ps : List (Nat × PromiseState))
    (p : Nat) (st : PromiseState) :
    (settlePromise ps p st).lookup p = ps.lookup p ∨
    (settlePromise ps p st).lookup p = some st := by
  induction ps with
  | nil => left; rfl
  | cons a t ih =>
    obtain ⟨k, v⟩ := a
    rw [settlePromise_cons]
    by_cases hk : k = p
    · subst hk
      cases v with
      | pending =>
        right
        rw [if_pos rfl]
        exact lookup_cons_self _ _ _
      | resolved r =>
        left
        rw [if_pos rfl, lookup_cons_self, lookup_cons_self]
      | rejected u =>
        left
        rw [if_pos rfl, lookup_cons_self, lookup_cons_self]
    · have hk' : p ≠ k := fun hh => hk hh.symm
      rw [if_neg hk, lookup_cons_ne _ _ hk', lookup_cons_ne _ _ hk']
      exact ih

/-- Every successful run of `handleMessage` either leaves the state
unchanged, resolves a pending connect slot (`READY`), or settles a
pending-request entry and deletes it (`RESPONSE`). -/
theorem handleMessage_ok_cases (e : MessageEvent) (s s' : BridgeState)
    (h : handleMessage e s = .ok s') :
    s' = s ∨
    (∃ p, s.connectionsRequested.lookup e.origin = some p ∧
      getProp e.data "type" = .ok (.strV MESSAGE_TYPE_READY) ∧
      s'.promises = settlePromise s.promises p (.resolved (.conn s.nextConn)) ∧
      s'.responseHandlers = s.responseHandlers ∧
      s'.connectionsRequested = s.connectionsRequested ∧
      s'.nextPromise = s.nextPromise) ∨
    (∃ p st k, s.responseHandlers.lookup k = some p ∧
      s'.promises = settlePromise s.promises p st ∧
      s'.responseHandlers = deleteKey s.responseHandlers k ∧
      s'.connectionsRequested = s.connectionsRequested ∧
      s'.nextPromise = s.nextPromise) := by
  rcases hd : getProp e.data "type" with u | mt
  · simp [handleMessage, hd] at h
  · cases mt with
    | strV t =>
      by_cases ht : t = MESSAGE_TYPE_READY
      · rcases hslot : s.connectionsRequested.lookup e.origin with _ | p
        · simp only [handleMessage, hd, if_pos ht, hslot] at h
          injection h with h
          subst h
          exact Or.inl rfl
        · simp only [handleMessage, hd, if_pos ht, hslot] at h
          injection h with h
          subst h
          refine Or.inr (Or.inl ⟨p, rfl, ?_, rfl, rfl, rfl, rfl⟩)
          rw [ht]
      · by_cases ht2 : t = MESSAGE_TYPE_RESPONSE
        · rcases hkey : s.responseHandlers.lookup
              (e.origin ++ "/" ++
                jsToString ((getProp e.data "id").toOption.getD .undefV))
              with _ | p
          · simp only [handleMessage, hd, if_neg ht, if_pos ht2, hkey] at h
            injection h with h
            subst h
            exact Or.inl rfl
          · by_cases herr : hasProp e.data "err" <;>
              simp only [handleMessage, hd, if_neg ht, if_pos ht2, hkey,
                herr, if_true, if_false, Bool.false_eq_true] at h <;>
              injection h with h <;> subst h <;>
              exact Or.inr (Or.inr ⟨p, _, _, hkey, rfl, rfl, rfl, rfl⟩)
        · simp only [handleMessage, hd, if_neg ht, if_neg ht2] at h
          injection h with h
          subst h
          exact Or.inl rfl
    | nullV =>
      simp only [handleMessage, hd] at h
      injection h with h; subst h; exact Or.inl rfl
    | undefV =>
      simp only [handleMessage, hd] at h
      injection h with h; subst h; exact Or.inl rfl
    | boolV b =>
      simp only [handleMessage, hd] at h
      injection h with h; subst h; exact Or.inl rfl
    | numV n =>
      simp only [handleMessage, hd] at h
      injection h with h; subst h; exact Or.inl rfl
    | objV fs =>
      simp only [handleMessage, hd] at h
      injection h with h; subst h; exact Or.inl rfl

theorem connect_cases (o : String) (s : BridgeState) :
    ((connect o s).2.responseHandlers = s.responseHandlers ∧
     (connect o s).2.connectionsRequested = s.connectionsRequested ∧
     (connect o s).2.promises = s.promises ∧
     (connect o s).2.nextPromise = s.nextPromise) ∨
    ((connect o s).2.responseHandlers = s.responseHandlers ∧
     (connect o s).2.connectionsRequested
       = (o, s.nextPromise) :: s.connectionsRequested ∧
     (connect o s).2.promises = (s.nextPromise, .pending) :: s.promises ∧
     (connect o s).2.nextPromise = s.nextPromise + 1) := by
  by_cases hf : s.addedMessageListener <;>
    rcases hl : List.lookup o s.connectionsPromised with _ | q
  · right
    simp [connect, hf, hl]
  · left
    simp [connect, hf, hl]
  · right
    simp [connect, hf, hl]
  · left
    simp [connect, hf, hl]

theorem connGuard_step (O : String) (p : Nat) (ev : BridgeEvent)
    (s : BridgeState) (hg : connGuard O p s) :
    connGuard O p (stepE ev s) := by
  obtain ⟨h1, h2, h3⟩ := hg
  cases ev with
  | connectE o =>
    show connGuard O p (connect o s).2
    rcases connect_cases o s with ⟨ha, hb, hc, hdp⟩ | ⟨ha, hb, hc, hdp⟩
    · refine ⟨?_, ?_, ?_⟩
      · rw [hdp]; exact h1
      · rw [ha]; exact h2
      · rw [hb]; exact h3
    · refine ⟨?_, ?_, ?_⟩
      · rw [hdp]; exact Nat.lt_succ_of_lt h1
      · rw [ha]; exact h2
      · rw [hb]
        intro x hx heq
        rcases List.mem_cons.mp hx with hh | hh
        · exfalso
          rw [hh] at heq
          exact Nat.ne_of_lt h1 heq.symm
        · exact h3 x hh heq
  | requestE cid b =>
    rcases hc : s.conns.lookup cid with _ | c
    · have : stepE (.requestE cid b) s = s := by
        simp [stepE, ExtConnection.request, hc]
      rw [this]
      exact ⟨h1, h2, h3⟩
    · have hr := request_found cid b s c hc
      simp only [stepE, hr]
      refine ⟨Nat.lt_succ_of_lt h1, ?_, h3⟩
      intro x hx
      rcases List.mem_cons.mp hx with hh | hh
      · rw [hh]
        exact fun heq => Nat.ne_of_lt h1 heq.symm
      · exact h2 x hh
  | messageE e =>
    rcases hm : handleMessage e s with u | s1
    · have : stepE (.messageE e) s = s := by simp [stepE, hm]
      rw [this]
      exact ⟨h1, h2, h3⟩
    · have hst : stepE (.messageE e) s = s1 := by simp [stepE, hm]
      rw [hst]
      rcases handleMessage_ok_cases e s s1 hm with rfl |
        ⟨q, hq, hty, hp, hrh, hcr, hnp⟩ | ⟨q, st, k, hk, hp, hrh, hcr, hnp⟩
      · exact ⟨h1, h2, h3⟩
      · refine ⟨?_, ?_, ?_⟩
        · rw [hnp]; exact h1
        · rw [hrh]; exact h2
        · rw [hcr]; exact h3
      · refine ⟨?_, ?_, ?_⟩
        · rw [hnp]; exact h1
        · rw [hrh]
          intro x hx
          exact h2 x (mem_deleteKey _ _ hx)
        · rw [hcr]; exact h3

theorem stepE_pending_preserved (O : String) (p : Nat) (ev : BridgeEvent)
    (s : BridgeState) (hg : connGuard O p s)
    (hev : isReadyFrom O ev = false)
    (hpend : s.promises.lookup p = some .pending) :
    (stepE ev s).promises.lookup p = some .pending := by
  obtain ⟨h1, h2, h3⟩ := hg
  cases ev with
  | connectE o =>
    show (connect o s).2.promises.lookup p = some .pending
    rcases connect_cases o s with ⟨ha, hb, hc, hdp⟩ | ⟨ha, hb, hc, hdp⟩
    · rw [hc]; exact hpend
    · rw [hc, lookup_cons_ne _ _ (Nat.ne_of_lt h1)]
      exact hpend
  | requestE cid b =>
    rcases hc : s.conns.lookup cid with _ | c
    · have : stepE (.requestE cid b) s = s := by
        simp [stepE, ExtConnection.request, hc]
      rw [this]
      exact hpend
    · have hr := request_found cid b s c hc
      simp only [stepE, hr]
      show List.lookup p ((s.nextPromise, .pending) :: s.promises) = _
      rw [lookup_cons_ne _ _ (Nat.ne_of_lt h1)]
      exact hpend
  | messageE e =>
    rcases hm : handleMessage e s with u | s1
    · have : stepE (.messageE e) s = s := by simp [stepE, hm]
      rw [this]
      exact hpend
    · have hst : stepE (.messageE e) s = s1 := by simp [stepE, hm]
      rw [hst]
      rcases handleMessage_ok_cases e s s1 hm with rfl |
        ⟨q, hq, hty, hp, hrh, hcr, hnp⟩ | ⟨q, st, k, hk, hp, hrh, hcr, hnp⟩
      · exact hpend
      · have hor : e.origin ≠ O := by
          simp only [isReadyFrom, hty, Except.toOption, Option.getD_some,
            beq_self_eq_true, Bool.and_true, beq_eq_false_iff_ne, ne_eq] at hev
          exact hev
        have hqp : p ≠ q := by
          intro hh
          exact hor (h3 (e.origin, q) (mem_of_lookup_eq_some hq) (by rw [← hh]))
        rw [hp, lookup_settlePromise_ne _ _ _ _ hqp]
        exact hpend
      · have hqp : p ≠ q := by
          intro hh
          exact h2 (k, q) (mem_of_lookup_eq_some hk) hh.symm
        rw [hp, lookup_settlePromise_ne _ _ _ _ hqp]
        exact hpend

theorem stepE_never_rejected (O : String) (p : Nat) (ev : BridgeEvent)
    (s : BridgeState) (hg : connGuard O p s)
    (hnr : ∀ v, s.promises.lookup p ≠ some (.rejected v)) :
    ∀ v, (stepE ev s).promises.lookup p ≠ some (.rejected v) := by
  obtain ⟨h1, h2, h3⟩ := hg
  cases ev with
  | connectE o =>
    intro v
    show (connect o s).2.promises.lookup p ≠ some (.rejected v)
    rcases connect_cases o s with ⟨ha, hb, hc, hdp⟩ | ⟨ha, hb, hc, hdp⟩
    · rw [hc]; exact hnr v
    · rw [hc, lookup_cons_ne _ _ (Nat.ne_of_lt h1)]
      exact hnr v
  | requestE cid b =>
    intro v
    rcases hc : s.conns.lookup cid with _ | c
    · have : stepE (.requestE cid b) s = s := by
        simp [stepE, ExtConnection.request, hc]
      rw [this]
      exact hnr v
    · have hr := request_found cid b s c hc
      simp only [stepE, hr]
      show List.lookup p ((s.nextPromise, .pending) :: s.promises) ≠ _
      rw [lookup_cons_ne _ _ (Nat.ne_of_lt h1)]
      exact hnr v
  | messageE e =>
    intro v
    rcases hm : handleMessage e s with u | s1
    · have : stepE (.messageE e) s = s := by simp [stepE, hm]
      rw [this]
      exact hnr v
    · have hst : stepE (.messageE e) s = s1 := by simp [stepE, hm]
      rw [hst]
      rcases handleMessage_ok_cases e s s1 hm with rfl |
        ⟨q, hq, hty, hp, hrh, hcr, hnp⟩ | ⟨q, st, k, hk, hp, hrh, hcr, hnp⟩
      · exact hnr v
      · by_cases hqp : q = p
        · subst hqp
          rcases lookup_settlePromise_self_cases s.promises q
              (.resolved (.conn s.nextConn)) with hcase | hcase
          · rw [hp, hcase]; exact hnr v
          · rw [hp, hcase]
            intro hh
            injection hh with hh
            exact absurd hh (by simp)
        · rw [hp, lookup_settlePromise_ne _ _ _ _ (fun hh => hqp hh.symm)]
          exact hnr v
      · have hqp : p ≠ q := by
          intro hh
          exact h2 (k, q) (mem_of_lookup_eq_some hk) hh.symm
        rw [hp, lookup_settlePromise_ne _ _ _ _ hqp]
        exact hnr v

theorem runEvents_cons (ev : BridgeEvent) (evs : List BridgeEvent)
    (s : BridgeState) :
    runEvents (ev :: evs) s = runEvents evs (stepE ev s) := rfl

theorem runEvents_pending (O : String) (p : Nat) (evs : List BridgeEvent)
    (s : BridgeState) (hg : connGuard O p s)
    (hall : ∀ ev ∈ evs, isReadyFrom O ev = false)
    (hpend : s.promises.lookup p = some .pending) :
    (runEvents evs s).promises.lookup p = some .pending := by
  induction evs generalizing s with
  | nil => exact hpend
  | cons ev rest ih =>
    rw [runEvents_cons]
    exact ih (stepE ev s) (connGuard_step O p ev s hg)
      (fun x hx => hall x (List.mem_cons_of_mem _ hx))
      (stepE_pending_preserved O p ev s hg
        (hall ev (List.mem_cons_self _ _)) hpend)

theorem runEvents_never_rejected (O : String) (p : Nat)
    (evs : List BridgeEvent) (s : BridgeState) (hg : connGuard O p s)
    (hnr : ∀ v, s.promises.lookup p ≠ some (.rejected v)) :
    ∀ v, (runEvents evs s).promises.lookup p ≠ some (.rejected v) := by
  induction evs generalizing s with
  | nil => exact hnr
  | cons ev rest ih =>
    rw [runEvents_cons]
    exact ih (stepE ev s) (connGuard_step O p ev s hg)
      (stepE_never_rejected O p ev s hg hnr)

/-- C8: a pending connection promise for origin `O` — one that no
pending-request entry targets and that only `O`'s connect slot can
settle, exactly the situation `connect O` creates — is never rejected
under any sequence of connect calls, request calls and inbound message
events; and if no event of the sequence is a `READY` entering the
handler from origin `O`, it is still pending at the end (it never
settles at all). -/
theorem claim_C8_connect_promise_pends_never_rejects (O : String)
    (p : Nat) (evs : List BridgeEvent) (s : BridgeState)
    (hg : connGuard O p s)
    (hpend : s.promises.lookup p = some .pending) :
    ((∀ ev ∈ evs, isReadyFrom O ev = false) →
      (runEvents evs s).promises.lookup p = some .pending) ∧
    (∀ v, (runEvents evs s).promises.lookup p ≠ some (.rejected v)) := by
  constructor
  · intro hall
    exact runEvents_pending O p evs s hg hall hpend
  · refine runEvents_never_rejected O p evs s hg ?_
    intro v hh
    rw [hpend] at hh
    injection hh with hh
    exact absurd hh (by simp)

/-- Witness for C8: the promise `connect "o"` creates, under a sequence
with a stray ready from another origin, a foreign connect, a dangling
request and an unmatched response — it stays pending and unrejected. -/
theorem claim_C8_connect_promise_pends_never_rejects_witness :
    connGuard "o" 0 (connect "o" initState).2 ∧
    ((∀ ev ∈ [BridgeEvent.messageE ⟨"other", 5,
        .objV [("type", .strV MESSAGE_TYPE_READY)]⟩,
      .connectE "o2", .requestE 9 .nullV,
      .messageE ⟨"o", 5, .objV [("type", .strV MESSAGE_TYPE_RESPONSE),
        ("id", .numV 0), ("body", .strV "b")]⟩],
        isReadyFrom "o" ev = false) →
      (runEvents [BridgeEvent.messageE ⟨"other", 5,
          .objV [("type", .strV MESSAGE_TYPE_READY)]⟩,
        .connectE "o2", .requestE 9 .nullV,
        .messageE ⟨"o", 5, .objV [("type", .strV MESSAGE_TYPE_RESPONSE),
          ("id", .numV 0), ("body", .strV "b")]⟩]
        (connect "o" initState).2).promises.lookup 0
        = some .pending) ∧
    (∀ v, (runEvents [BridgeEvent.messageE ⟨"other", 5,
        .objV [("type", .strV MESSAGE_TYPE_READY)]⟩,
      .connectE "o2", .requestE 9 .nullV,
      .messageE ⟨"o", 5, .objV [("type", .strV MESSAGE_TYPE_RESPONSE),
        ("id", .numV 0), ("body", .strV "b")]⟩]
      (connect "o" initState).2).promises.lookup 0
      ≠ some (.rejected v)) := by
  have hg : connGuard "o" 0 (connect "o" initState).2 := by
    refine ⟨by decide, ?_, ?_⟩
    · intro h hmem
      simp [connect, initState] at hmem
    · intro h hmem heq
      simp [connect, initState] at hmem
      rw [hmem]
  refine ⟨hg, ?_, ?_⟩
  · exact (claim_C8_connect_promise_pends_never_rejects "o" 0 _ _ hg rfl).1
  · exact (claim_C8_connect_promise_pends_never_rejects "o" 0 _ _ hg rfl).2
